import Mathlib

/-!
Verification development for the Discord MCP server (`src/index.ts`).

The definitions below are a shallow embedding of the resolution and
aggregation layer of the server: the guild resolver (`findGuild`), the
archived-thread pagination loop of `search-threads`, the merge / filter /
sort / truncate pipeline shared by `list-threads` and `search-threads`,
the tag resolver of `add-thread-tags`, the `unarchive-thread` branch
logic, and the `read-forum-threads` aggregation.  Remote calls performed
through the discord.js client are modelled as injected functions on an
environment record; the mutating calls a handler issues
(`setAppliedTags`, `setArchived`) are recorded explicitly in the result
so that frame conditions ("no call is issued") are statable.

discord.js `Collection` values (JavaScript `Map`s keyed by entity id)
are modelled as lists of entities together with the `Map.set` /
`Collection.concat` semantics: setting an existing key replaces the
value in place, setting a fresh key appends.
-/

namespace DiscordMCP

/-- A forum thread as used by the handlers: id, name, archived flag,
creation timestamp and the list of applied tag ids. -/
structure Thread where
  id : String
  name : String
  archived : Bool
  createdTimestamp : Int
  appliedTags : List String
deriving DecidableEq, Repr, Inhabited

/-- A forum tag from `forumChannel.availableTags`. -/
structure Tag where
  id : String
  name : String
deriving DecidableEq, Repr, Inhabited

/-- A guild (server): opaque unique id and a (not necessarily unique) name. -/
structure Guild where
  id : String
  name : String
deriving DecidableEq, Repr, Inhabited

/-- A message, reduced to the fields the claims mention. -/
structure Message where
  id : String
  content : String
deriving DecidableEq, Repr, Inhabited

/-- Charwise lowercasing, the semantics of JavaScript
`String.prototype.toLowerCase` on the identifier strings handled here. -/
def strToLower (s : String) : String := ⟨s.data.map Char.toLower⟩

/-- `subAt sub l` checks whether `sub` occurs at the start of `l`. -/
def subAt : List Char → List Char → Bool
  | [], _ => true
  | _ :: _, [] => false
  | c :: cs, d :: ds => c == d && subAt cs ds

/-- `hasSubList sub l` checks whether `sub` occurs contiguously anywhere in
`l`. -/
def hasSubList (sub : List Char) : List Char → Bool
  | [] => sub.isEmpty
  | d :: ds => subAt sub (d :: ds) || hasSubList sub ds

/-- JavaScript `hay.includes(sub)`: substring containment. -/
def strIncludes (hay sub : String) : Bool := hasSubList sub.data hay.data

/-- `Map.set` on a `Collection` of threads keyed by thread id: replace in
place if the id is present, append otherwise. -/
def collSet (xs : List Thread) (t : Thread) : List Thread :=
  if xs.any (fun u => u.id == t.id) then
    xs.map (fun u => if u.id == t.id then t else u)
  else xs ++ [t]

/-- `Collection.concat`: fold `Map.set` over the second collection's
entries. -/
def collConcat (xs ys : List Thread) : List Thread :=
  ys.foldl collSet xs

/-- The id of the last thread of a batch
(`threadIds[threadIds.length - 1]` in the handler); used as the `before`
cursor of the next archived-batch request. -/
def lastId (l : List Thread) : String :=
  match l.getLast? with
  | some t => t.id
  | none => ""

/-- The archived-thread pagination loop of `search-threads`
(`while (hasMore && fetchCount < maxFetches)`), with the remaining fetch
budget `maxFetches - fetchCount` as the explicit recursion fuel.  `src`
is the remote batch request (`threads.fetchArchived({limit: 100, before})`)
keyed by the optional cursor.  Besides the accumulated collection the
function returns the list of cursors actually passed to the remote call,
so the number and shape of batch requests is observable. -/
def fetchArchivedLoop (src : Option String → List Thread) :
    Nat → Option String → List Thread → List Thread × List (Option String)
  | 0, _, acc => (acc, [])
  | fuel + 1, before, acc =>
    let batch := src before
    if batch.isEmpty then
      (acc, [before])
    else
      let rest := fetchArchivedLoop src fuel (some (lastId batch)) (collConcat acc batch)
      (rest.1, before :: rest.2)

/-- `const maxFetches = 10` in the `search-threads` handler. -/
def maxFetches : Nat := 10

/-- The whole archived-thread pagination of `search-threads` starting
from an initial accumulated collection `acc` (the handler starts from the
collection already holding the active threads). -/
def fetchAllArchivedFrom (src : Option String → List Thread) (acc : List Thread) :
    List Thread × List (Option String) :=
  fetchArchivedLoop src maxFetches none acc

/-- The pagination algorithm run on its own (empty initial collection):
the "bounded multi-batch pagination" of the specification. -/
def fetchAllArchived (src : Option String → List Thread) :
    List Thread × List (Option String) :=
  fetchAllArchivedFrom src []

/-- Stable descending insertion of a thread into a list: the thread is
placed before the first element whose timestamp is not larger.  This is
the unique stable descending order by `createdTimestamp`, the semantics
of `Array.prototype.sort((a, b) => b.createdTimestamp - a.createdTimestamp)`
(ECMAScript sort is stable). -/
def insertThread (t : Thread) : List Thread → List Thread
  | [] => [t]
  | u :: us =>
    if u.createdTimestamp ≤ t.createdTimestamp then t :: u :: us
    else u :: insertThread t us

/-- Stable sort of threads by `createdTimestamp` descending. -/
def sortThreadsDesc (l : List Thread) : List Thread := l.foldr insertThread []

/-- The shared tail of `list-threads` and `search-threads`: sort newest
first, then `.slice(0, limit)`. -/
def sortAndLimit (limit : Nat) (l : List Thread) : List Thread :=
  (sortThreadsDesc l).take limit

/-- The remote calls a resolved forum channel offers to the thread
handlers: the single active-thread fetch and the archived-batch fetch
with optional `before` cursor and optional `limit` (the `list-threads`
handler calls `fetchArchived()` with no options, the `search-threads`
loop calls it with `{limit: 100, before}`). -/
structure ForumEnv where
  activeThreads : List Thread
  fetchArchived : Option String → Option Nat → List Thread
  availableTags : List Tag

/-- Thread collection assembled by the `list-threads` handler: an empty
collection concatenated with the active threads, and, when
`includeArchived` is set, with the result of one plain `fetchArchived()`
call. -/
def listThreadsMerged (env : ForumEnv) (includeArchived : Bool) : List Thread :=
  let allThreads := collConcat [] env.activeThreads
  if includeArchived then collConcat allThreads (env.fetchArchived none none)
  else allThreads

/-- The `list-threads` handler's thread list: merge, sort newest first,
truncate to `limit`. -/
def listThreads (env : ForumEnv) (limit : Nat) (includeArchived : Bool) : List Thread :=
  sortAndLimit limit (listThreadsMerged env includeArchived)

/-- The name filter of `search-threads`: with `exactMatch` the lowercased
thread name must equal the lowercased query, otherwise it must contain it
as a substring. -/
def threadMatches (exactMatch : Bool) (queryLower : String) (t : Thread) : Bool :=
  let threadNameLower := strToLower t.name
  if exactMatch then threadNameLower == queryLower
  else strIncludes threadNameLower queryLower

/-- Thread collection assembled by the `search-threads` handler before
filtering: active threads, then (when `includeArchived`) the bounded
pagination loop accumulating into the same collection. -/
def searchThreadsMerged (env : ForumEnv) (includeArchived : Bool) : List Thread :=
  let allThreads := collConcat [] env.activeThreads
  if includeArchived then
    (fetchAllArchivedFrom (fun c => env.fetchArchived c (some 100)) allThreads).1
  else allThreads

/-- The filtered thread list of `search-threads` (`filteredThreads` in the
handler, the value its `totalSearched` counts). -/
def searchThreadsFiltered (env : ForumEnv) (query : String)
    (includeArchived exactMatch : Bool) : List Thread :=
  (searchThreadsMerged env includeArchived).filter
    (threadMatches exactMatch (strToLower query))

/-- The `search-threads` handler's final thread list: filter, sort newest
first, truncate to `limit`. -/
def searchThreads (env : ForumEnv) (query : String) (limit : Nat)
    (includeArchived exactMatch : Bool) : List Thread :=
  sortAndLimit limit (searchThreadsFiltered env query includeArchived exactMatch)

/-- Failure classes of the remote single-id guild fetch.  `notFound` is
the platform's unknown-guild rejection, `apiError` stands for every other
class of failure (permission, network, rate limit).  The handler's
`catch` block does not inspect which one occurred. -/
inductive FetchErr
  | notFound
  | apiError
deriving DecidableEq, Repr

/-- The guild-side remote interface used by `findGuild`: the cached guild
list and the single-id fetch. -/
structure GuildEnv where
  cachedGuilds : List Guild
  fetchGuildById : String → Except FetchErr Guild

/-- The classified errors thrown by `findGuild`, with the data each
message interpolates. -/
inductive GuildResolveErr
  | multipleServers (available : List String)
  | serverNotFound (ident : String) (available : List String)
  | ambiguousServerName (ident : String) (matchList : List (String × String))
deriving DecidableEq, Repr

/-- The case-insensitive name fallback inside `findGuild`'s `catch`
block: filter the cached guilds by lowercased name, then fail on zero
matches, fail with the name/id list on several, return the single match
otherwise. -/
def guildNameFallback (env : GuildEnv) (guildIdentifier : String) :
    Except GuildResolveErr Guild :=
  let matchingGuilds := env.cachedGuilds.filter
    (fun g => strToLower g.name == strToLower guildIdentifier)
  if matchingGuilds.length = 0 then
    .error (.serverNotFound guildIdentifier (env.cachedGuilds.map (fun g => g.name)))
  else if matchingGuilds.length > 1 then
    .error (.ambiguousServerName guildIdentifier
      (matchingGuilds.map (fun g => (g.name, g.id))))
  else
    .ok (matchingGuilds.headD default)

/-- The `findGuild` helper: with no identifier, succeed only when the bot
is in exactly one guild; with an identifier, try the id fetch and fall
back to the name search whenever that fetch fails. -/
def findGuild (env : GuildEnv) (guildIdentifier : Option String) :
    Except GuildResolveErr Guild :=
  match guildIdentifier with
  | none =>
    match env.cachedGuilds with
    | [g] => .ok g
    | gs => .error (.multipleServers (gs.map (fun g => g.name)))
  | some ident =>
    match env.fetchGuildById ident with
    | .ok g => .ok g
    | .error _ => guildNameFallback env ident

/-- The error thrown by `add-thread-tags` when some requested tag names
match no configured tag: the unmatched names and the full valid name
list. -/
inductive TagErr
  | tagsNotFound (notFound : List String) (available : List String)
deriving DecidableEq, Repr

/-- The tag-resolution loop of `add-thread-tags`: for each requested name
take the first configured tag with the same lowercased name, collecting
matched ids and unmatched names in request order. -/
def resolveTagsLoop (availableTags : List Tag) : List String → List String × List String
  | [] => ([], [])
  | tagName :: rest =>
    let r := resolveTagsLoop availableTags rest
    match availableTags.find? (fun tag => strToLower tag.name == strToLower tagName) with
    | some tag => (tag.id :: r.1, r.2)
    | none => (r.1, tagName :: r.2)

/-- JavaScript `[...new Set(l)]`: de-duplication keeping the first
occurrence of each element. -/
def dedupFirst (l : List String) : List String :=
  l.foldl (fun acc s => if acc.contains s then acc else acc ++ [s]) []

/-- Outcome of `add-thread-tags` after thread resolution: the list of
`setAppliedTags` calls issued to the client and the handler's result. -/
structure AddTagsOutcome where
  setAppliedTagsCalls : List (List String)
  result : Except TagErr (List String)

/-- The tag-applying part of the `add-thread-tags` handler, given the
forum's configured tags and the thread's current applied tag ids: resolve
all names, fail with the unmatched names and the valid name list if any
name is unmatched (issuing no call), otherwise apply the de-duplicated
union of current and resolved ids. -/
def addThreadTags (availableTags : List Tag) (currentTagIds : List String)
    (tagNames : List String) : AddTagsOutcome :=
  let r := resolveTagsLoop availableTags tagNames
  if r.2.isEmpty then
    let newTagIds := dedupFirst (currentTagIds ++ r.1)
    { setAppliedTagsCalls := [newTagIds], result := .ok newTagIds }
  else
    { setAppliedTagsCalls := [],
      result := .error (.tagsNotFound r.2 (availableTags.map (fun tag => tag.name))) }

/-- Result of `unarchive-thread` on a resolved thread. -/
inductive UnarchiveResult
  | alreadyActive (threadName : String)
  | unarchived (threadName : String) (threadId : String)
deriving DecidableEq, Repr

/-- Outcome of `unarchive-thread`: the `setArchived` calls issued (each
with its archived flag and reason) and the handler's result. -/
structure UnarchiveOutcome where
  setArchivedCalls : List (Bool × Option String)
  result : UnarchiveResult
deriving DecidableEq, Repr

/-- The branch logic of `unarchive-thread` on the resolved thread: an
already-active thread short-circuits to a no-change success before any
`setArchived` call; otherwise `setArchived(false, reason)` is issued. -/
def unarchiveThread (thread : Thread) (reason : Option String) : UnarchiveOutcome :=
  if thread.archived then
    { setArchivedCalls := [(false, reason)],
      result := .unarchived thread.name thread.id }
  else
    { setArchivedCalls := [], result := .alreadyActive thread.name }

/-- The remote interface used by `read-forum-threads`: the forum's active
threads (`threads.fetchActive()`) and the per-thread message fetch
(`thread.messages.fetch({limit, before?})`). -/
structure ReadForumEnv where
  activeThreads : List Thread
  fetchMessages : String → Nat → Option String → List Message

/-- The aggregation of `read-forum-threads`: take the first `limit`
active threads and fetch each one's messages with the hardcoded
`{limit: 10}` option (plus the optional `before` cursor). -/
def readForumThreads (env : ReadForumEnv) (limit : Nat) (before : Option String) :
    List (String × List Message) :=
  (env.activeThreads.take limit).map
    (fun t => (t.id, env.fetchMessages t.id 10 before))

/-- A synthetic batch source responding to the cursor protocol of the
pagination loop: the first request (no cursor) yields `b0`, the request
cursored at the last id of `b0` yields `b1`, the one cursored at the last
id of `b1` yields `b2`, and any other cursor yields the empty batch. -/
def threeBatchSource (b0 b1 b2 : List Thread) : Option String → List Thread
  | none => b0
  | some c =>
    if c == lastId b0 then b1
    else if c == lastId b1 then b2
    else []

/-- An archived thread with a given id, for concrete batch sources. -/
def archThread (i : String) : Thread :=
  { id := i, name := "archived-thread", archived := true,
    createdTimestamp := 0, appliedTags := [] }

/-- Forum environment whose archived threads need two batch requests: the
uncursored batch holds only `a1`, the batch cursored after `a1` holds
`a2`. -/
def envC1 : ForumEnv where
  activeThreads := []
  fetchArchived := fun c _ =>
    match c with
    | none => [archThread "a1"]
    | some c => if c == "a1" then [archThread "a2"] else []
  availableTags := []

/-- A thread of a synthetic 100-thread batch. -/
def witThread (pre : String) (i : Nat) : Thread :=
  { id := pre ++ toString i, name := "t", archived := true,
    createdTimestamp := 0, appliedTags := [] }

/-- A synthetic batch of 100 threads with ids `pre ++ "0"` … `pre ++ "99"`. -/
def witBatch (pre : String) : List Thread := (List.range 100).map (witThread pre)

/-- A batch source that answers every request with the same singleton
batch, hence never returns an empty batch. -/
def srcC3 : Option String → List Thread := fun _ => [archThread "only"]

/-- First of two guilds sharing the name "dup". -/
def guildC6a : Guild := { id := "100", name := "dup" }

/-- Second of two guilds sharing the name "dup". -/
def guildC6b : Guild := { id := "200", name := "dup" }

/-- Guild environment with two guilds named "dup"; id fetch succeeds
exactly on their ids. -/
def envC6 : GuildEnv where
  cachedGuilds := [guildC6a, guildC6b]
  fetchGuildById := fun s =>
    if s == "100" then .ok guildC6a
    else if s == "200" then .ok guildC6b
    else .error .notFound

/-- The single guild of the environment used against the error-class
discrimination claim. -/
def guildC5 : Guild := { id := "g1", name := "alpha" }

/-- Guild environment whose id fetch always fails with a non-not-found
error class. -/
def envC5 : GuildEnv where
  cachedGuilds := [guildC5]
  fetchGuildById := fun _ => .error .apiError

/-- A configured forum tag named "Bug". -/
def tagBug : Tag := { id := "t1", name := "Bug" }

/-- A configured forum tag named "Help Wanted". -/
def tagHelp : Tag := { id := "t2", name := "Help Wanted" }

/-- Thread named "Library". -/
def libThread : Thread :=
  { id := "L1", name := "Library", archived := false,
    createdTimestamp := 0, appliedTags := [] }

/-- Thread named "Library2". -/
def libThread2 : Thread :=
  { id := "L2", name := "Library2", archived := false,
    createdTimestamp := 0, appliedTags := [] }

/-- Thread named "library-notes". -/
def libNotesThread : Thread :=
  { id := "L3", name := "library-notes", archived := false,
    createdTimestamp := 0, appliedTags := [] }

/-- Thread with creation timestamp 5. -/
def thread5 : Thread :=
  { id := "i5", name := "n5", archived := false,
    createdTimestamp := 5, appliedTags := [] }

/-- First thread with creation timestamp 3. -/
def thread3a : Thread :=
  { id := "i3a", name := "n3a", archived := false,
    createdTimestamp := 3, appliedTags := [] }

/-- Second thread with creation timestamp 3. -/
def thread3b : Thread :=
  { id := "i3b", name := "n3b", archived := false,
    createdTimestamp := 3, appliedTags := [] }

/-- Thread with creation timestamp 1. -/
def thread1 : Thread :=
  { id := "i1", name := "n1", archived := false,
    createdTimestamp := 1, appliedTags := [] }

/-- A concrete non-archived (active) thread. -/
def activeC9 : Thread :=
  { id := "T9", name := "open-thread", archived := false,
    createdTimestamp := 0, appliedTags := [] }

/-- Concrete `read-forum-threads` environment: two active threads, and a
message fetch honouring the requested limit. -/
def envC10 : ReadForumEnv where
  activeThreads :=
    [{ id := "T1", name := "one", archived := false,
       createdTimestamp := 5, appliedTags := [] },
     { id := "T2", name := "two", archived := false,
       createdTimestamp := 3, appliedTags := [] }]
  fetchMessages := fun tid n _ =>
    (List.range (min n 3)).map (fun i => { id := tid ++ toString i, content := "m" })

/-- `sub` occurs contiguously in `hay` (specification-side notion of
"contains as a substring"). -/
def SubstringOf (sub hay : List Char) : Prop :=
  ∃ pre post, hay = pre ++ sub ++ post

theorem subAt_iff (sub l : List Char) : subAt sub l = true ↔ ∃ post, l = sub ++ post := by
  induction sub generalizing l with
  | nil => simp [subAt]
  | cons c cs ih =>
    cases l with
    | nil => simp [subAt]
    | cons d ds =>
      simp only [subAt, Bool.and_eq_true, beq_iff_eq, ih]
      constructor
      · rintro ⟨rfl, post, rfl⟩
        exact ⟨post, rfl⟩
      · rintro ⟨post, h⟩
        cases h
        exact ⟨rfl, post, rfl⟩

theorem hasSubList_iff (sub l : List Char) :
    hasSubList sub l = true ↔ SubstringOf sub l := by
  induction l with
  | nil =>
    simp only [hasSubList, List.isEmpty_iff, SubstringOf]
    constructor
    · rintro rfl
      exact ⟨[], [], rfl⟩
    · rintro ⟨pre, post, h⟩
      rcases List.append_eq_nil.mp h.symm with ⟨h1, h2⟩
      rcases List.append_eq_nil.mp h1 with ⟨_, h3⟩
      exact h3
  | cons d ds ih =>
    simp only [hasSubList, Bool.or_eq_true, subAt_iff, ih, SubstringOf]
    constructor
    · rintro (⟨post, h⟩ | ⟨pre, post, h⟩)
      · exact ⟨[], post, by simpa using h⟩
      · exact ⟨d :: pre, post, by simp [h]⟩
    · rintro ⟨pre, post, h⟩
      cases pre with
      | nil => exact Or.inl ⟨post, by simpa using h⟩
      | cons p ps =>
        simp only [List.cons_append, List.cons.injEq] at h
        exact Or.inr ⟨ps, post, h.2⟩

theorem strIncludes_iff (hay sub : String) :
    strIncludes hay sub = true ↔ SubstringOf sub.data hay.data :=
  hasSubList_iff sub.data hay.data

theorem collSet_ids_of_mem (xs : List Thread) (t : Thread)
    (h : xs.any (fun u => u.id == t.id) = true) :
    (collSet xs t).map (fun u => u.id) = xs.map (fun u => u.id) := by
  rw [collSet, if_pos h, List.map_map]
  apply List.map_congr_left
  intro u _
  by_cases hc : u.id = t.id
  · simp [Function.comp, hc]
  · simp [Function.comp, hc]

theorem collSet_of_not_mem (xs : List Thread) (t : Thread)
    (h : xs.any (fun u => u.id == t.id) = false) :
    collSet xs t = xs ++ [t] := by
  rw [collSet, if_neg]
  simp [h]

theorem mem_ids_collSet (xs : List Thread) (t : Thread) (s : String) :
    s ∈ (collSet xs t).map (fun u => u.id) ↔
      s ∈ xs.map (fun u => u.id) ∨ s = t.id := by
  cases h : xs.any (fun u => u.id == t.id) with
  | true =>
    rw [collSet_ids_of_mem xs t h]
    rcases List.any_eq_true.mp h with ⟨u, hu, hid⟩
    have hid' : u.id = t.id := beq_iff_eq.mp hid
    constructor
    · exact Or.inl
    · rintro (hs | rfl)
      · exact hs
      · exact List.mem_map.mpr ⟨u, hu, hid'⟩
  | false =>
    rw [collSet_of_not_mem xs t h]
    simp [or_comm, eq_comm]

theorem nodup_ids_collSet (xs : List Thread) (t : Thread)
    (h : (xs.map (fun u => u.id)).Nodup) :
    ((collSet xs t).map (fun u => u.id)).Nodup := by
  cases ha : xs.any (fun u => u.id == t.id) with
  | true => rw [collSet_ids_of_mem xs t ha]; exact h
  | false =>
    rw [collSet_of_not_mem xs t ha]
    have hnotin : t.id ∉ xs.map (fun u => u.id) := by
      intro hmem
      rcases List.mem_map.mp hmem with ⟨u, hu, hid⟩
      have hb : (fun u => u.id == t.id) u = true := by simp [hid]
      have : xs.any (fun u => u.id == t.id) = true := List.any_eq_true.mpr ⟨u, hu, hb⟩
      rw [ha] at this
      exact Bool.false_ne_true this
    simp [List.nodup_append, h, hnotin]

theorem length_collSet_le (xs : List Thread) (t : Thread) :
    (collSet xs t).length ≤ xs.length + 1 := by
  rw [collSet]
  by_cases h : xs.any (fun u => u.id == t.id) = true
  · rw [if_pos h]
    simp
  · rw [if_neg h]
    simp

theorem mem_ids_collConcat (xs ys : List Thread) (s : String) :
    s ∈ (collConcat xs ys).map (fun u => u.id) ↔
      s ∈ xs.map (fun u => u.id) ∨ s ∈ ys.map (fun u => u.id) := by
  induction ys generalizing xs with
  | nil => simp [collConcat]
  | cons t ts ih =>
    have step : collConcat xs (t :: ts) = collConcat (collSet xs t) ts := rfl
    rw [step, ih, mem_ids_collSet]
    simp [or_assoc, eq_comm]

theorem nodup_ids_collConcat (xs ys : List Thread)
    (h : (xs.map (fun u => u.id)).Nodup) :
    ((collConcat xs ys).map (fun u => u.id)).Nodup := by
  induction ys generalizing xs with
  | nil => exact h
  | cons t ts ih =>
    have step : collConcat xs (t :: ts) = collConcat (collSet xs t) ts := rfl
    rw [step]
    exact ih _ (nodup_ids_collSet xs t h)

theorem length_collConcat_le (xs ys : List Thread) :
    (collConcat xs ys).length ≤ xs.length + ys.length := by
  induction ys generalizing xs with
  | nil => simp [collConcat]
  | cons t ts ih =>
    have step : collConcat xs (t :: ts) = collConcat (collSet xs t) ts := rfl
    rw [step]
    have h1 := ih (collSet xs t)
    have h2 := length_collSet_le xs t
    simp only [List.length_cons]
    omega

theorem fetchArchivedLoop_succ_nonempty (src : Option String → List Thread)
    (fuel : Nat) (before : Option String) (acc : List Thread)
    (hb : src before ≠ []) :
    fetchArchivedLoop src (fuel + 1) before acc =
      ((fetchArchivedLoop src fuel (some (lastId (src before)))
          (collConcat acc (src before))).1,
       before :: (fetchArchivedLoop src fuel (some (lastId (src before)))
          (collConcat acc (src before))).2) := by
  have hiE : (src before).isEmpty = false := by
    simp [List.isEmpty_iff, hb]
  simp [fetchArchivedLoop, hiE]

theorem fetchArchivedLoop_succ_empty (src : Option String → List Thread)
    (fuel : Nat) (before : Option String) (acc : List Thread)
    (hb : src before = []) :
    fetchArchivedLoop src (fuel + 1) before acc = (acc, [before]) := by
  simp [fetchArchivedLoop, hb]

theorem fetchArchivedLoop_never_empty (src : Option String → List Thread)
    (hne : ∀ c, src c ≠ []) (hlen : ∀ c, (src c).length ≤ 100) :
    ∀ (fuel : Nat) (before : Option String) (acc : List Thread),
      (fetchArchivedLoop src fuel before acc).2.length = fuel ∧
      (fetchArchivedLoop src fuel before acc).1.length ≤ acc.length + 100 * fuel := by
  intro fuel
  induction fuel with
  | zero => intro before acc; simp [fetchArchivedLoop]
  | succ n ih =>
    intro before acc
    rw [fetchArchivedLoop_succ_nonempty src n before acc (hne before)]
    rcases ih (some (lastId (src before))) (collConcat acc (src before)) with ⟨h1, h2⟩
    refine ⟨by simp [h1], ?_⟩
    have h3 := length_collConcat_le acc (src before)
    have h4 := hlen before
    simp only []
    omega

theorem mem_insertThread (t v : Thread) (l : List Thread) :
    v ∈ insertThread t l ↔ v = t ∨ v ∈ l := by
  induction l with
  | nil => simp [insertThread]
  | cons u us ih =>
    by_cases h : u.createdTimestamp ≤ t.createdTimestamp
    · simp [insertThread, h]
    · simp [insertThread, h, ih]
      tauto

theorem pairwise_insertThread (t : Thread) (l : List Thread)
    (h : l.Pairwise (fun a b => b.createdTimestamp ≤ a.createdTimestamp)) :
    (insertThread t l).Pairwise (fun a b => b.createdTimestamp ≤ a.createdTimestamp) := by
  induction l with
  | nil => simp [insertThread]
  | cons u us ih =>
    rcases List.pairwise_cons.mp h with ⟨hu, hus⟩
    by_cases hc : u.createdTimestamp ≤ t.createdTimestamp
    · rw [insertThread, if_pos hc]
      refine List.pairwise_cons.mpr ⟨?_, h⟩
      intro v hv
      rcases List.mem_cons.mp hv with rfl | hv'
      · exact hc
      · exact le_trans (hu v hv') hc
    · rw [insertThread, if_neg hc]
      refine List.pairwise_cons.mpr ⟨?_, ih hus⟩
      intro v hv
      rcases (mem_insertThread t v us).mp hv with rfl | hv'
      · exact le_of_not_le hc
      · exact hu v hv'

theorem sortThreadsDesc_pairwise (l : List Thread) :
    (sortThreadsDesc l).Pairwise (fun a b => b.createdTimestamp ≤ a.createdTimestamp) := by
  induction l with
  | nil => simp [sortThreadsDesc]
  | cons t ts ih =>
    have step : sortThreadsDesc (t :: ts) = insertThread t (sortThreadsDesc ts) := rfl
    rw [step]
    exact pairwise_insertThread t _ ih

theorem filter_insertThread (t : Thread) (l : List Thread) (k : Int) :
    (insertThread t l).filter (fun u => u.createdTimestamp == k) =
      if t.createdTimestamp = k then
        t :: l.filter (fun u => u.createdTimestamp == k)
      else l.filter (fun u => u.createdTimestamp == k) := by
  induction l with
  | nil =>
    by_cases hk : t.createdTimestamp = k
    · simp [insertThread, List.filter_cons, hk]
    · simp [insertThread, List.filter_cons, hk]
  | cons u us ih =>
    by_cases hc : u.createdTimestamp ≤ t.createdTimestamp
    · rw [insertThread, if_pos hc]
      by_cases hk : t.createdTimestamp = k
      · simp [List.filter_cons, hk]
      · simp [List.filter_cons, hk]
    · rw [insertThread, if_neg hc]
      rw [List.filter_cons]
      by_cases hk : t.createdTimestamp = k
      · have huk : ¬ (u.createdTimestamp = k) := fun h => hc (le_of_eq (h.trans hk.symm))
        simp [huk, ih, hk, List.filter_cons]
      · by_cases huk : u.createdTimestamp = k
        · simp [huk, ih, hk, List.filter_cons]
        · simp [huk, ih, hk, List.filter_cons]

theorem sortThreadsDesc_filter (l : List Thread) (k : Int) :
    (sortThreadsDesc l).filter (fun u => u.createdTimestamp == k) =
      l.filter (fun u => u.createdTimestamp == k) := by
  induction l with
  | nil => simp [sortThreadsDesc]
  | cons t ts ih =>
    have step : sortThreadsDesc (t :: ts) = insertThread t (sortThreadsDesc ts) := rfl
    rw [step, filter_insertThread]
    by_cases hk : t.createdTimestamp = k
    · simp [List.filter_cons, hk, ih]
    · simp [List.filter_cons, hk, ih]

theorem resolveTagsLoop_notFound (availableTags : List Tag) (tagNames : List String) :
    (resolveTagsLoop availableTags tagNames).2 =
      tagNames.filter
        (fun n => !(availableTags.any
          (fun tag => strToLower tag.name == strToLower n))) := by
  induction tagNames with
  | nil => simp [resolveTagsLoop]
  | cons n ns ih =>
    simp only [resolveTagsLoop]
    cases hfind : availableTags.find? (fun tag => strToLower tag.name == strToLower n) with
    | some tag =>
      have hmem := List.mem_of_find?_eq_some hfind
      have hp := List.find?_some hfind
      have hany : availableTags.any (fun tag => strToLower tag.name == strToLower n) = true :=
        List.any_eq_true.mpr ⟨tag, hmem, hp⟩
      simp [List.filter, hany, ih]
    | none =>
      have hall := List.find?_eq_none.mp hfind
      have hany : availableTags.any (fun tag => strToLower tag.name == strToLower n) = false := by
        rw [List.any_eq_false]
        intro tag htag
        exact hall tag htag
      simp [List.filter, hany, ih]

/-- C3: against a batch source that never returns an empty batch the
archived-thread pagination loop stops after exactly 10 batch requests
(`maxFetches`), and — each batch holding at most the requested 100
threads — collects at most 10 × 100 = 1000 threads, returning normally
(the cap raises no error). -/
theorem c3_pagination_cap (src : Option String → List Thread)
    (hne : ∀ c, src c ≠ []) (hlen : ∀ c, (src c).length ≤ 100) :
    (fetchAllArchived src).2.length = 10 ∧
    (fetchAllArchived src).1.length ≤ 1000 := by
  have h := fetchArchivedLoop_never_empty src hne hlen maxFetches none []
  rw [maxFetches] at h
  exact ⟨h.1, by simpa using h.2⟩

/-- Witness for C3 at the constant singleton batch source. -/
theorem c3_witness :
    (∀ c, srcC3 c ≠ []) ∧ (∀ c, (srcC3 c).length ≤ 100) ∧
    (fetchAllArchived srcC3).2.length = 10 ∧
    (fetchAllArchived srcC3).1.length ≤ 1000 := by
  have h1 : ∀ c, srcC3 c ≠ [] := by intro c; simp [srcC3]
  have h2 : ∀ c, (srcC3 c).length ≤ 100 := by intro c; simp [srcC3]
  have h := c3_pagination_cap srcC3 h1 h2
  exact ⟨h1, h2, h.1, h.2⟩

/-- C4: against a batch source yielding batches of sizes
[100, 100, 100, 0] under the cursor protocol, the pagination loop makes
exactly 4 batch requests — the first uncursored, each later one cursored
at the oldest (last) thread id of the previous batch — terminates on the
empty batch, and collects the union of the three batches de-duplicated by
thread id. -/
theorem c4_pagination_four_batches (b0 b1 b2 : List Thread)
    (h0 : b0.length = 100) (h1 : b1.length = 100) (h2 : b2.length = 100)
    (d10 : lastId b1 ≠ lastId b0)
    (d20 : lastId b2 ≠ lastId b0) (d21 : lastId b2 ≠ lastId b1) :
    (fetchAllArchived (threeBatchSource b0 b1 b2)).2 =
      [none, some (lastId b0), some (lastId b1), some (lastId b2)] ∧
    (fetchAllArchived (threeBatchSource b0 b1 b2)).1 =
      collConcat (collConcat (collConcat [] b0) b1) b2 ∧
    ((fetchAllArchived (threeBatchSource b0 b1 b2)).1.map (fun t => t.id)).Nodup ∧
    (∀ s, s ∈ (fetchAllArchived (threeBatchSource b0 b1 b2)).1.map (fun t => t.id) ↔
      s ∈ (b0 ++ b1 ++ b2).map (fun t => t.id)) := by
  have hb0 : b0 ≠ [] := by intro h; rw [h] at h0; simp at h0
  have hb1 : b1 ≠ [] := by intro h; rw [h] at h1; simp at h1
  have hb2 : b2 ≠ [] := by intro h; rw [h] at h2; simp at h2
  have s0 : threeBatchSource b0 b1 b2 none = b0 := rfl
  have s1 : threeBatchSource b0 b1 b2 (some (lastId b0)) = b1 := by
    simp [threeBatchSource]
  have s2 : threeBatchSource b0 b1 b2 (some (lastId b1)) = b2 := by
    simp [threeBatchSource, d10]
  have s3 : threeBatchSource b0 b1 b2 (some (lastId b2)) = [] := by
    simp [threeBatchSource, d20, d21]
  have key : fetchArchivedLoop (threeBatchSource b0 b1 b2) 10 none [] =
      (collConcat (collConcat (collConcat [] b0) b1) b2,
       [none, some (lastId b0), some (lastId b1), some (lastId b2)]) := by
    rw [show (10 : Nat) = 9 + 1 from rfl,
        fetchArchivedLoop_succ_nonempty _ 9 none [] (by rw [s0]; exact hb0)]
    rw [s0]
    rw [show (9 : Nat) = 8 + 1 from rfl,
        fetchArchivedLoop_succ_nonempty _ 8 _ _ (by rw [s1]; exact hb1)]
    rw [s1]
    rw [show (8 : Nat) = 7 + 1 from rfl,
        fetchArchivedLoop_succ_nonempty _ 7 _ _ (by rw [s2]; exact hb2)]
    rw [s2]
    rw [show (7 : Nat) = 6 + 1 from rfl,
        fetchArchivedLoop_succ_empty _ 6 _ _ s3]
  have keyAll : fetchAllArchived (threeBatchSource b0 b1 b2) =
      (collConcat (collConcat (collConcat [] b0) b1) b2,
       [none, some (lastId b0), some (lastId b1), some (lastId b2)]) := by
    rw [fetchAllArchived, fetchAllArchivedFrom, maxFetches, key]
  refine ⟨by rw [keyAll], by rw [keyAll], ?_, ?_⟩
  · rw [keyAll]
    exact nodup_ids_collConcat _ b2
      (nodup_ids_collConcat _ b1 (nodup_ids_collConcat [] b0 (by simp)))
  · intro s
    rw [keyAll]
    simp only [mem_ids_collConcat, List.map_append, List.mem_append]
    simp

/-- Witness for C4 at three concrete disjoint 100-thread batches. -/
theorem c4_witness :
    (witBatch "a").length = 100 ∧ (witBatch "b").length = 100 ∧
    (witBatch "c").length = 100 ∧
    lastId (witBatch "b") ≠ lastId (witBatch "a") ∧
    lastId (witBatch "c") ≠ lastId (witBatch "a") ∧
    lastId (witBatch "c") ≠ lastId (witBatch "b") ∧
    (fetchAllArchived (threeBatchSource (witBatch "a") (witBatch "b") (witBatch "c"))).2 =
      [none, some (lastId (witBatch "a")), some (lastId (witBatch "b")),
       some (lastId (witBatch "c"))] := by
  have e0 : (witBatch "a").length = 100 := by decide
  have e1 : (witBatch "b").length = 100 := by decide
  have e2 : (witBatch "c").length = 100 := by decide
  have f10 : lastId (witBatch "b") ≠ lastId (witBatch "a") := by decide
  have f20 : lastId (witBatch "c") ≠ lastId (witBatch "a") := by decide
  have f21 : lastId (witBatch "c") ≠ lastId (witBatch "b") := by decide
  have h := c4_pagination_four_batches (witBatch "a") (witBatch "b") (witBatch "c")
    e0 e1 e2 f10 f20 f21
  exact ⟨e0, e1, e2, f10, f20, f21, h.1⟩

/-- C1 counterexample: `list-threads` with `includeArchived` does NOT run
the bounded multi-batch pagination algorithm — against a forum whose
archived threads need two batch requests it merges only the single
uncursored batch (`a1`), while the pagination algorithm would collect
both `a1` and `a2`. -/
theorem c1_pagination_counterexample :
    (listThreadsMerged envC1 true).map (fun t => t.id) = ["a1"] ∧
    ((fetchAllArchived (fun c => envC1.fetchArchived c (some 100))).1).map
      (fun t => t.id) = ["a1", "a2"] := by
  constructor
  · decide
  · decide

/-- C1 (amended): for every `list-threads` invocation with
`includeArchived = true`, the archived threads merged into the result are
obtained by a single archived-batch request (not the multi-batch
pagination), merged with the active threads and de-duplicated by thread
id, then sorted newest first and truncated to the limit. -/
theorem c1_list_threads_merge_amended :
    ∀ (env : ForumEnv) (limit : Nat),
      listThreads env limit true =
        (sortThreadsDesc (listThreadsMerged env true)).take limit ∧
      listThreadsMerged env true =
        collConcat (collConcat [] env.activeThreads) (env.fetchArchived none none) ∧
      ((listThreadsMerged env true).map (fun t => t.id)).Nodup ∧
      (∀ s, s ∈ (listThreadsMerged env true).map (fun t => t.id) ↔
        s ∈ env.activeThreads.map (fun t => t.id) ∨
        s ∈ (env.fetchArchived none none).map (fun t => t.id)) := by
  intro env limit
  have hm : listThreadsMerged env true =
      collConcat (collConcat [] env.activeThreads) (env.fetchArchived none none) := rfl
  refine ⟨rfl, hm, ?_, ?_⟩
  · rw [hm]
    exact nodup_ids_collConcat _ _ (nodup_ids_collConcat [] _ (by simp))
  · intro s
    rw [hm, mem_ids_collConcat, mem_ids_collConcat]
    simp

/-- C2: if any requested tag name has no case-insensitive match among the
forum's configured tags, `add-thread-tags` fails as a whole, reporting
exactly the unmatched names together with all configured tag names, and
issues no `setAppliedTags` call, so the thread's applied tags are
unchanged and no partial application occurs. -/
theorem c2_add_thread_tags_all_or_nothing
    (availableTags : List Tag) (currentTagIds : List String) (tagNames : List String)
    (h : ∃ n ∈ tagNames, ∀ tag ∈ availableTags, strToLower tag.name ≠ strToLower n) :
    (addThreadTags availableTags currentTagIds tagNames).setAppliedTagsCalls = [] ∧
    (addThreadTags availableTags currentTagIds tagNames).result =
      .error (.tagsNotFound
        (tagNames.filter (fun n => !(availableTags.any
          (fun tag => strToLower tag.name == strToLower n))))
        (availableTags.map (fun tag => tag.name))) := by
  rcases h with ⟨n, hn, hall⟩
  have hmem : n ∈ (resolveTagsLoop availableTags tagNames).2 := by
    rw [resolveTagsLoop_notFound, List.mem_filter]
    refine ⟨hn, ?_⟩
    simp only [Bool.not_eq_true', List.any_eq_false]
    intro tag htag
    simp [hall tag htag]
  have hne : (resolveTagsLoop availableTags tagNames).2.isEmpty = false := by
    cases hh : (resolveTagsLoop availableTags tagNames).2 with
    | nil => rw [hh] at hmem; simp at hmem
    | cons a as => simp
  have hA : addThreadTags availableTags currentTagIds tagNames =
      { setAppliedTagsCalls := [],
        result := .error (.tagsNotFound (resolveTagsLoop availableTags tagNames).2
          (availableTags.map (fun tag => tag.name))) } := by
    simp only [addThreadTags, hne, Bool.false_eq_true, if_false]
  refine ⟨by rw [hA], ?_⟩
  rw [hA, resolveTagsLoop_notFound]

/-- Witness for C2: one unmatched name ("Missing") among three requested
fails the whole call with that name and the full valid-name list, issuing
no tag application. -/
theorem c2_witness :
    (addThreadTags [tagBug, tagHelp] ["t9"]
      ["bug", "Missing", "help wanted"]).setAppliedTagsCalls = [] ∧
    (addThreadTags [tagBug, tagHelp] ["t9"]
      ["bug", "Missing", "help wanted"]).result =
      .error (.tagsNotFound ["Missing"] ["Bug", "Help Wanted"]) := by
  have h := c2_add_thread_tags_all_or_nothing [tagBug, tagHelp] ["t9"]
    ["bug", "Missing", "help wanted"] (by decide)
  refine ⟨h.1, ?_⟩
  rw [h.2]
  rfl

/-- C5 counterexample: the resolver's fallback is NOT restricted to
not-found fetch failures — in an environment whose id fetch fails with a
different error class (`apiError`), `findGuild` still performs the name
fallback and resolves the identifier by name. -/
theorem c5_fallback_counterexample :
    envC5.fetchGuildById "alpha" = .error .apiError ∧
    findGuild envC5 (some "alpha") = .ok guildC5 := by
  exact ⟨rfl, rfl⟩

/-- C5 (amended): when the direct id fetch fails, `findGuild` falls back
to the case-insensitive name match for every class of fetch failure; the
error class is never inspected. -/
theorem c5_fallback_amended (env : GuildEnv) (ident : String) (e : FetchErr)
    (h : env.fetchGuildById ident = .error e) :
    findGuild env (some ident) = guildNameFallback env ident := by
  simp [findGuild, h]

/-- Witness for C5 (amended) at the `apiError`-failing environment. -/
theorem c5_witness :
    envC5.fetchGuildById "alpha" = .error .apiError ∧
    findGuild envC5 (some "alpha") = guildNameFallback envC5 "alpha" :=
  ⟨rfl, c5_fallback_amended envC5 "alpha" .apiError rfl⟩

/-- C6: when exactly two distinct cached guilds match the identifier `n`
by case-insensitive name and `n` itself fails the id fetch, resolution by
`n` fails with the ambiguity error enumerating both matches' names and
ids, while resolution by either guild's id succeeds and returns that
guild. -/
theorem c6_duplicate_name_ambiguity (env : GuildEnv) (n : String)
    (g1 g2 : Guild) (e : FetchErr)
    (hfetch : env.fetchGuildById n = .error e)
    (hfilter : env.cachedGuilds.filter
      (fun g => strToLower g.name == strToLower n) = [g1, g2])
    (hid1 : env.fetchGuildById g1.id = .ok g1)
    (hid2 : env.fetchGuildById g2.id = .ok g2) :
    findGuild env (some n) =
      .error (.ambiguousServerName n [(g1.name, g1.id), (g2.name, g2.id)]) ∧
    findGuild env (some g1.id) = .ok g1 ∧
    findGuild env (some g2.id) = .ok g2 := by
  refine ⟨?_, by simp [findGuild, hid1], by simp [findGuild, hid2]⟩
  simp [findGuild, hfetch, guildNameFallback, hfilter]

/-- Witness for C6 at two guilds named "dup" with ids "100" and "200". -/
theorem c6_witness :
    findGuild envC6 (some "dup") =
      .error (.ambiguousServerName "dup" [("dup", "100"), ("dup", "200")]) ∧
    findGuild envC6 (some "100") = .ok guildC6a ∧
    findGuild envC6 (some "200") = .ok guildC6b := by
  have h := c6_duplicate_name_ambiguity envC6 "dup" guildC6a guildC6b .notFound
    rfl (by decide) rfl rfl
  exact h

/-- C7: the `search-threads` filter keeps exactly the threads whose
lowercased name equals the lowercased query when `exactMatch` is set, and
exactly those whose lowercased name contains it as a contiguous substring
otherwise; concretely, query "Library" with `exactMatch` matches the
thread named "Library" but not "Library2" or "library-notes", and without
`exactMatch` matches all three. -/
theorem c7_search_filter :
    (∀ (env : ForumEnv) (query : String) (includeArchived exactMatch : Bool),
      searchThreadsFiltered env query includeArchived exactMatch =
        (searchThreadsMerged env includeArchived).filter
          (threadMatches exactMatch (strToLower query))) ∧
    (∀ (q : String) (t : Thread),
      threadMatches true (strToLower q) t = true ↔
        strToLower t.name = strToLower q) ∧
    (∀ (q : String) (t : Thread),
      threadMatches false (strToLower q) t = true ↔
        SubstringOf (strToLower q).data (strToLower t.name).data) ∧
    threadMatches true (strToLower "Library") libThread = true ∧
    threadMatches true (strToLower "Library") libThread2 = false ∧
    threadMatches true (strToLower "Library") libNotesThread = false ∧
    threadMatches false (strToLower "Library") libThread = true ∧
    threadMatches false (strToLower "Library") libThread2 = true ∧
    threadMatches false (strToLower "Library") libNotesThread = true := by
  refine ⟨fun env query i e => rfl, ?_, ?_, by decide, by decide, by decide,
    by decide, by decide, by decide⟩
  · intro q t
    simp [threadMatches]
  · intro q t
    exact strIncludes_iff (strToLower t.name) (strToLower q)

/-- C8: in `list-threads` and `search-threads` the surviving threads are
sorted by `createdTimestamp` descending and then truncated to the limit;
the sort is stable — for every timestamp the subsequence of threads with
that timestamp is unchanged — and on concrete threads with timestamps
[5, 3, 3, 1] the output keeps the two timestamp-3 threads in their
original relative order. -/
theorem c8_sort_stable_truncate :
    (∀ (env : ForumEnv) (limit : Nat) (includeArchived : Bool),
      listThreads env limit includeArchived =
        (sortThreadsDesc (listThreadsMerged env includeArchived)).take limit) ∧
    (∀ (env : ForumEnv) (query : String) (limit : Nat) (i e : Bool),
      searchThreads env query limit i e =
        (sortThreadsDesc (searchThreadsFiltered env query i e)).take limit) ∧
    (∀ l : List Thread,
      (sortThreadsDesc l).Pairwise
        (fun a b => b.createdTimestamp ≤ a.createdTimestamp)) ∧
    (∀ (l : List Thread) (k : Int),
      (sortThreadsDesc l).filter (fun u => u.createdTimestamp == k) =
        l.filter (fun u => u.createdTimestamp == k)) ∧
    sortThreadsDesc [thread5, thread3a, thread3b, thread1] =
      [thread5, thread3a, thread3b, thread1] := by
  exact ⟨fun env limit i => rfl, fun env q limit i e => rfl,
    sortThreadsDesc_pairwise, sortThreadsDesc_filter, by decide⟩

/-- C9: `unarchive-thread` on a resolved thread that is already active
returns the no-change success result and issues no `setArchived` call to
the client. -/
theorem c9_unarchive_noop (thread : Thread) (reason : Option String)
    (h : thread.archived = false) :
    unarchiveThread thread reason =
      { setArchivedCalls := [], result := .alreadyActive thread.name } := by
  simp [unarchiveThread, h]

/-- Witness for C9 at a concrete active thread. -/
theorem c9_witness :
    activeC9.archived = false ∧
    unarchiveThread activeC9 none =
      { setArchivedCalls := [], result := .alreadyActive "open-thread" } :=
  ⟨rfl, c9_unarchive_noop activeC9 none rfl⟩

/-- C10: `read-forum-threads` draws only from the forum's active threads;
the limit parameter truncates the thread list (not the messages), and
each returned thread's messages are fetched with the hardcoded limit 10,
so (messages fetches honouring their limit) at most 10 messages per
thread are returned. -/
theorem c10_read_forum_threads (env : ReadForumEnv) (limit : Nat)
    (before : Option String)
    (hplat : ∀ tid n b, (env.fetchMessages tid n b).length ≤ n)
    (hactive : ∀ t ∈ env.activeThreads, t.archived = false) :
    (readForumThreads env limit before).length ≤ limit ∧
    readForumThreads env limit before =
      (env.activeThreads.map
        (fun t => (t.id, env.fetchMessages t.id 10 before))).take limit ∧
    (∀ p ∈ readForumThreads env limit before,
      (∃ t ∈ env.activeThreads, t.archived = false ∧ p.1 = t.id ∧
        p.2 = env.fetchMessages t.id 10 before) ∧
      p.2.length ≤ 10) := by
  refine ⟨?_, ?_, ?_⟩
  · simp only [readForumThreads, List.length_map, List.length_take]
    omega
  · simp [readForumThreads, List.map_take]
  · intro p hp
    simp only [readForumThreads, List.mem_map] at hp
    rcases hp with ⟨t, ht, rfl⟩
    have ht' : t ∈ env.activeThreads := List.mem_of_mem_take ht
    exact ⟨⟨t, ht', hactive t ht', rfl, rfl⟩, hplat t.id 10 before⟩

/-- Witness for C10 at a concrete two-thread forum with limit 1. -/
theorem c10_witness :
    (∀ tid n b, (envC10.fetchMessages tid n b).length ≤ n) ∧
    (∀ t ∈ envC10.activeThreads, t.archived = false) ∧
    (readForumThreads envC10 1 none).length ≤ 1 := by
  have h1 : ∀ tid n b, (envC10.fetchMessages tid n b).length ≤ n := by
    intro tid n b
    simp only [envC10, List.length_map, List.length_range]
    omega
  have h2 : ∀ t ∈ envC10.activeThreads, t.archived = false := by decide
  exact ⟨h1, h2, (c10_read_forum_threads envC10 1 none h1 h2).1⟩

end DiscordMCP
